import Mathlib

/-!
Verification development for the rustbuster enumeration tool
(src/src/main.rs).  The definitions below are a shallow embedding of the
driver in `main.rs`: the per-mode consumer loops, the startup validation,
the command-line filter configuration, and the candidate set-up.  The
sibling modules (`dirbuster`, `dnsbuster`, `vhostbuster`, `fuzzbuster`)
are not part of the source tree; the few pieces of them the driver calls
(candidate builders and result processors) are modelled from the written
specification and marked as such in their doc comments.
-/

namespace Rustbuster

/-- Reason the consumer loop stopped: it reached the expected total number
of requests, the result channel was closed (`rx.recv()` returned `Err`),
or it broke out after a connection error (main.rs lines 274-283, 472-481). -/
inductive StopReason where
  | completed
  | channelClosed
  | connectionError

deriving instance DecidableEq for StopReason

/-- Result of one dir-mode probe, as consumed by the dir loop of main.rs
(lines 253-321): a url, method and status string, an optional error and an
optional extra payload. -/
structure SingleDirScanResult where
  url : String
  method : String
  status : String
  error : Option String
  extra : Option String

deriving instance DecidableEq for SingleDirScanResult

/-- One resolved socket address of a DNS probe, as printed by the dns loop
(main.rs lines 380-403): its textual ip and whether it is an IPv4 address
(model of the external std::net::SocketAddr). -/
structure ResolvedAddr where
  ip : String
  isIpv4 : Bool

deriving instance DecidableEq for ResolvedAddr

/-- Result of one dns-mode probe, as consumed by the dns loop of main.rs
(lines 349-407): the probed domain string, a boolean resolution status and
the optionally resolved addresses. -/
structure SingleDnsScanResult where
  domain : String
  status : Bool
  extra : Option (List ResolvedAddr)

deriving instance DecidableEq for SingleDnsScanResult

/-- Result of one vhost-mode probe, as consumed by the vhost loop of
main.rs (lines 451-511): the virtual host, method and status strings, an
optional error, and the `ignored` flag set at probe time when the response
body contained one of the configured ignore strings. -/
structure SingleVhostScanResult where
  vhost : String
  method : String
  status : String
  error : Option String
  ignored : Bool

deriving instance DecidableEq for SingleVhostScanResult

/-! ## Command-line filter configuration (set_common_args / extract_common_args) -/

/-- Conflicts registered by `set_common_args` (main.rs lines 601-633) among
the four filter arguments: only `include-string` declares
`conflicts_with("ignore-string")`; the two status-code arguments declare no
conflict. -/
def arg_conflicts (name : String) : List String :=
  if name = "include-string" then ["ignore-string"] else []

/-- The filter arguments the user supplied on the command line: `none`
means the argument was absent (for the status-code arguments clap then
supplies the registered default value). -/
structure FilterCli where
  include_string : Option (List String)
  ignore_string : Option (List String)
  include_status_codes : Option (List String)
  ignore_status_codes : Option (List String)

deriving instance DecidableEq for FilterCli

/-- Names of the filter arguments present on the command line. -/
def FilterCli.present (c : FilterCli) : List String :=
  (if c.include_string.isSome then ["include-string"] else []) ++
    (if c.ignore_string.isSome then ["ignore-string"] else []) ++
      (if c.include_status_codes.isSome then ["include-status-codes"] else []) ++
        (if c.ignore_status_codes.isSome then ["ignore-status-codes"] else [])

/-- Model of clap's conflict validation: parsing succeeds only when no
present argument lists another present argument among its conflicts;
otherwise clap reports an error and the program never starts a run. -/
def clap_accepts (present : List String) : Bool :=
  present.all (fun a => (arg_conflicts a).all (fun c => !present.contains c))

/-- Validity test applied to each status-code token, embedding the external
`hyper::StatusCode::from_str` used at main.rs lines 777 and 792: exactly
three ASCII digits whose value lies in 100..=999, i.e. the first digit is
not zero. -/
def status_code_valid (s : String) : Bool :=
  s.length == 3 && s.toList.all Char.isDigit && s.front != '0'

/-- Status-code list extraction of `extract_common_args` (main.rs lines
770-799): empty tokens are dropped, invalid tokens are dropped with a
warning, valid tokens are kept in order. -/
def extract_status_codes (values : List String) : List String :=
  values.filter (fun s => if s.isEmpty then false else status_code_valid s)

/-- The filter-policy part of `CommonArgs` (main.rs lines 703-721). -/
structure FilterPolicy where
  include_codes : List String
  exclude_codes : List String
  include_body : List String
  exclude_body : List String

deriving instance DecidableEq for FilterPolicy

/-- Filter extraction of `extract_common_args` (main.rs lines 747-799):
body-string lists are the raw values when the argument is present and empty
otherwise; status-code lists come from the supplied values, or from the
registered clap defaults `""` (include) and `"404"` (ignore) when absent,
and are then filtered for validity. -/
def extract_common_filters (cli : FilterCli) : FilterPolicy :=
  { include_codes := extract_status_codes (cli.include_status_codes.getD [""])
    exclude_codes := extract_status_codes (cli.ignore_status_codes.getD ["404"])
    include_body := cli.include_string.getD []
    exclude_body := cli.ignore_string.getD [] }

/-- Filter configuration reaching a run: clap first validates the
registered conflicts (rejecting the command line outright on a conflict),
then `extract_common_args` builds the filter policy. -/
def startup_filter_policy (cli : FilterCli) : Option FilterPolicy :=
  if clap_accepts cli.present then some (extract_common_filters cli) else none

/-! ## Candidate generation -/

/-- Modelled from the spec: `build_urls` of the `dirbuster::utils` module,
which is not under src/.  For each word of the wordlist it emits one
candidate for the bare path `url ++ word`, one candidate
`url ++ word ++ "." ++ ext` per configured extension, and one candidate
`url ++ word ++ "/"` when append-slash is set.  The wordlist is given as
its list of words (file reading elided). -/
def build_urls (wordlist : List String) (url : String) (extensions : List String)
    (append_slash : Bool) : List String :=
  wordlist.foldr
    (fun word acc =>
      (url ++ word) ::
        (extensions.map (fun ext => url ++ word ++ "." ++ ext) ++
          (if append_slash then [url ++ word ++ "/"] else []) ++ acc))
    []

/-- Dir-mode candidate set-up of main.rs lines 219-225: empty strings are
removed from the extensions list before `build_urls` is called. -/
def dirCandidates (wordlist : List String) (url : String) (extensions : List String)
    (append_slash : Bool) : List String :=
  build_urls wordlist url (extensions.filter (fun e => !e.isEmpty)) append_slash

/-- Modelled from the spec: `build_domains` of the `dnsbuster::utils`
module, which is not under src/.  For each word it emits one candidate
whose identity is `word ++ "." ++ domain` with a trailing root-label
separator appended. -/
def build_domains (wordlist : List String) (domain : String) : List String :=
  wordlist.map (fun w => w ++ "." ++ domain ++ ".")

/-- Modelled from the spec: `build_vhosts` of the `vhostbuster::utils`
module, which is not under src/.  For each word it emits one candidate
virtual host `word ++ "." ++ domain`. -/
def build_vhosts (wordlist : List String) (domain : String) : List String :=
  wordlist.map (fun w => w ++ "." ++ domain)

/-! ## Dir result processor -/

/-- The `ResultProcessorConfig` handed to the dir result processor
(main.rs lines 236-239): the include and ignore status-code lists (the
source fields are named `include` and `ignore`; `include` is a keyword
here, hence the suffix). -/
structure ResultProcessorConfig where
  includeList : List String
  ignoreList : List String

deriving instance DecidableEq for ResultProcessorConfig

/-- Modelled from the spec: `ScanResult::maybe_add_result` of the
`dirbuster::result_processor` module, which is not under src/.  Acceptance
is the spec's predicate -- accept iff the include list is empty and the
status is not in the ignore list, or the include list is non-empty and the
status is in it; an accepted result is appended in arrival order and the
returned flag tells the caller (main.rs line 285) whether it was added. -/
def maybe_add_result (cfg : ResultProcessorConfig) (results : List SingleDirScanResult)
    (msg : SingleDirScanResult) : List SingleDirScanResult × Bool :=
  if (cfg.includeList.isEmpty && !(cfg.ignoreList.contains msg.status)) ||
      (!cfg.includeList.isEmpty && cfg.includeList.contains msg.status) then
    (results ++ [msg], true)
  else
    (results, false)

/-! ## Dir-mode consumer loop (main.rs lines 253-321) -/

/-- Progress-bar message set on each iteration of the consumer loops
(main.rs lines 256-264): the current request counter divided by the whole
seconds elapsed since start, or a warming-up message while the elapsed
whole seconds are still zero. -/
def throughput_label (count seconds : Nat) : String :=
  if seconds ≠ 0 then toString (count / seconds) else "warming up..."

/-- Observable events of one run of the dir consumer loop, in program
order: a progress label being set (with the counter value and elapsed
seconds used), a message being received from the result channel, an error
being reported, and an accepted result being added and printed. -/
inductive DirEvent where
  | label (counter seconds : Nat) (text : String)
  | recv (msg : SingleDirScanResult)
  | reportError (e : String)
  | found (msg : SingleDirScanResult)

deriving instance DecidableEq for DirEvent

/-- Outcome of the dir consumer loop: its event trace, the accumulated
results of the result processor, and why it stopped. -/
structure DirRun where
  events : List DirEvent
  results : List SingleDirScanResult
  reason : StopReason

deriving instance DecidableEq for DirRun

/-- The progress-label event of one loop iteration: the counter has just
been incremented from `current` to `current + 1` (main.rs line 254) and
the label is computed from it -- before the iteration's message is
received. -/
def dirLabelEvent (clock : Nat → Nat) (current : Nat) : DirEvent :=
  .label (current + 1) (clock (current + 1))
    (throughput_label (current + 1) (clock (current + 1)))

/-- Shallow embedding of the dir consumer loop (main.rs lines 253-321),
driven by the list of messages the workers put on the result channel, in
arrival order, and by `clock`, giving the elapsed whole seconds observed at
each iteration.  Each iteration increments the counter, sets the progress
label, and receives one message (an empty list models the channel closing:
`rx.recv()` returns `Err` and the loop breaks).  A message carrying an
error has it reported (`msg.error.toList` is the reported error, if any);
if it is the first message of the run or exit-on-connection-errors is set
the loop then breaks, otherwise every received message falls through to
the result processor and an accepted message is printed. -/
def dirLoopAux (exitOnErr : Bool) (cfg : ResultProcessorConfig) (total : Nat)
    (clock : Nat → Nat) :
    Nat → List SingleDirScanResult → List SingleDirScanResult → DirRun
  | current, [], results =>
    if current = total then ⟨[], results, .completed⟩
    else ⟨[dirLabelEvent clock current], results, .channelClosed⟩
  | current, msg :: rest, results =>
    if current = total then ⟨[], results, .completed⟩
    else
      if msg.error.isSome ∧ (current + 1 = 1 ∨ exitOnErr = true) then
        ⟨dirLabelEvent clock current :: .recv msg ::
            msg.error.toList.map DirEvent.reportError,
          results, .connectionError⟩
      else
        ⟨dirLabelEvent clock current :: .recv msg ::
            (msg.error.toList.map DirEvent.reportError ++
              ((if (maybe_add_result cfg results msg).2 then
                  [DirEvent.found msg]
                else []) ++
                (dirLoopAux exitOnErr cfg total clock (current + 1) rest
                  (maybe_add_result cfg results msg).1).events)),
          (dirLoopAux exitOnErr cfg total clock (current + 1) rest
            (maybe_add_result cfg results msg).1).results,
          (dirLoopAux exitOnErr cfg total clock (current + 1) rest
            (maybe_add_result cfg results msg).1).reason⟩

/-- A full dir-mode consumer run: counter starting at zero and no
accumulated results. -/
def dirRun (exitOnErr : Bool) (cfg : ResultProcessorConfig) (total : Nat)
    (clock : Nat → Nat) (msgs : List SingleDirScanResult) : DirRun :=
  dirLoopAux exitOnErr cfg total clock 0 msgs []

/-- Number of messages received from the result channel in a trace. -/
def countRecv (events : List DirEvent) : Nat :=
  events.countP (fun e => match e with | .recv _ => true | _ => false)

/-- One progress label together with the context it was computed in: the
counter value and elapsed seconds it used, and the number of messages that
had already been received from the result channel when it was set. -/
structure LabelObs where
  counter : Nat
  seconds : Nat
  recvBefore : Nat
  text : String

deriving instance DecidableEq for LabelObs

/-- Reads the labels out of a trace, pairing each with the number of
messages received before it; `r` is the number of messages received before
the trace started. -/
def labelsWithRecv : List DirEvent → Nat → List LabelObs
  | [], _ => []
  | .label k s t :: rest, r => ⟨k, s, r, t⟩ :: labelsWithRecv rest r
  | .recv _ :: rest, r => labelsWithRecv rest (r + 1)
  | .reportError _ :: rest, r => labelsWithRecv rest r
  | .found _ :: rest, r => labelsWithRecv rest r

/-! ## Vhost-mode consumer loop (main.rs lines 451-511) -/

/-- Outcome of the vhost consumer loop: how many messages it received, the
errors it reported, the results accumulated by the result processor, the
results it printed, and why it stopped.  The progress labels follow the
same code as the dir loop and are modelled there. -/
structure VhostRun where
  received : Nat
  reported : List String
  results : List SingleVhostScanResult
  printed : List SingleVhostScanResult
  reason : StopReason

deriving instance DecidableEq for VhostRun

/-- Shallow embedding of the vhost consumer loop (main.rs lines 451-511).
Each iteration increments the counter and receives one message.  A message
carrying an error is reported; if it is the first message of the run or
exit-on-connection-errors is set the loop breaks.  Otherwise, when the
message's `ignored` flag is false it is handed to
`VhostScanResult::maybe_add_result` -- modelled from the spec as appending
in arrival order, the module being absent from src/ -- and printed. -/
def vhostLoopAux (exitOnErr : Bool) (total : Nat) :
    Nat → List SingleVhostScanResult → List SingleVhostScanResult → VhostRun
  | current, [], results =>
    if current = total then ⟨0, [], results, [], .completed⟩
    else ⟨0, [], results, [], .channelClosed⟩
  | current, msg :: rest, results =>
    if current = total then ⟨0, [], results, [], .completed⟩
    else
      if msg.error.isSome ∧ (current + 1 = 1 ∨ exitOnErr = true) then
        ⟨1, msg.error.toList, results, [], .connectionError⟩
      else
        ⟨1 + (vhostLoopAux exitOnErr total (current + 1) rest
              (if msg.ignored then results else results ++ [msg])).received,
          msg.error.toList ++
            (vhostLoopAux exitOnErr total (current + 1) rest
              (if msg.ignored then results else results ++ [msg])).reported,
          (vhostLoopAux exitOnErr total (current + 1) rest
            (if msg.ignored then results else results ++ [msg])).results,
          (if msg.ignored then [] else [msg]) ++
            (vhostLoopAux exitOnErr total (current + 1) rest
              (if msg.ignored then results else results ++ [msg])).printed,
          (vhostLoopAux exitOnErr total (current + 1) rest
            (if msg.ignored then results else results ++ [msg])).reason⟩

/-- A full vhost-mode consumer run: counter starting at zero and no
accumulated results. -/
def vhostRun (exitOnErr : Bool) (total : Nat)
    (msgs : List SingleVhostScanResult) : VhostRun :=
  vhostLoopAux exitOnErr total 0 msgs []

/-! ## Dns-mode consumer loop (main.rs lines 349-407) -/

/-- The byte slice `&domain[..domain.len() - 3]` taken when printing a
successful resolution (main.rs line 375): defined only when the domain is
at least three bytes long -- on a shorter domain `domain.len() - 3`
underflows and the indexing panics out of bounds.  Domains are modelled at
one byte per character (ASCII). -/
def domainSlice (domain : String) : Option String :=
  if 3 ≤ domain.length then
    some (String.mk (domain.toList.take (domain.length - 3)))
  else none

/-- The `OK` line printed for a successfully resolved domain (main.rs
lines 374-378); `none` models the out-of-bounds panic of `domainSlice`. -/
def dnsPrintOk (msg : SingleDnsScanResult) : Option String :=
  (domainSlice msg.domain).map (fun d => "OK\t" ++ d)

/-- One printed address line (main.rs lines 380-403). -/
def addrLine (a : ResolvedAddr) : String :=
  (if a.isIpv4 then "\t\tIPv4: " else "\t\tIPv6: ") ++ a.ip

/-- Outcome of the dns consumer loop: how many messages it received, the
results recorded by the result processor, the lines printed for successful
resolutions (the `OK` line, or `none` for the slicing panic, together with
the printed address lines), and why the loop stopped. -/
structure DnsRun where
  received : Nat
  results : List SingleDnsScanResult
  printed : List (Option String × List String)
  reason : StopReason

deriving instance DecidableEq for DnsRun

/-- Shallow embedding of the dns consumer loop (main.rs lines 349-407).
Each iteration increments the counter and receives one message; the
message is always handed to `DnsScanResult::maybe_add_result` -- modelled
from the spec as recording every result, the module being absent from
src/ -- and when its status is true the sliced domain and its resolved
addresses are printed.  There is no error escape in this loop. -/
def dnsLoopAux (total : Nat) :
    Nat → List SingleDnsScanResult → List SingleDnsScanResult → DnsRun
  | current, [], results =>
    if current = total then ⟨0, results, [], .completed⟩
    else ⟨0, results, [], .channelClosed⟩
  | current, msg :: rest, results =>
    if current = total then ⟨0, results, [], .completed⟩
    else
      ⟨1 + (dnsLoopAux total (current + 1) rest (results ++ [msg])).received,
        (dnsLoopAux total (current + 1) rest (results ++ [msg])).results,
        (if msg.status then
            [(dnsPrintOk msg, (msg.extra.getD []).map addrLine)]
          else []) ++
          (dnsLoopAux total (current + 1) rest (results ++ [msg])).printed,
        (dnsLoopAux total (current + 1) rest (results ++ [msg])).reason⟩

/-- A full dns-mode consumer run: counter starting at zero and no
accumulated results. -/
def dnsRun (total : Nat) (msgs : List SingleDnsScanResult) : DnsRun :=
  dnsLoopAux total 0 msgs []

/-! ## Startup validation (main.rs lines 125-166) -/

/-- URL validation of main.rs lines 125-150.  `parsed` is the outcome of
the external `url.parse::<hyper::Uri>()`: `none` for a parse error,
otherwise the parsed URI's optional scheme part.  In dns mode the whole
check is skipped; in every other mode a parse error, a missing scheme, or
a scheme other than http/https makes the program return before any
dispatch. -/
def url_check (mode : String) (parsed : Option (Option String)) : Bool :=
  if mode ≠ "dns" then
    match parsed with
    | none => false
    | some (some s) => if s ≠ "http" ∧ s ≠ "https" then false else true
    | some none => if mode ≠ "dns" then false else true
  else true

/-- Wordlist existence check of main.rs lines 152-166: one boolean per
configured wordlist path (whether `std::fs::metadata` succeeded), folded
with conjunction; the program returns before any dispatch unless all
wordlists exist. -/
def all_wordlists_exist (wordlists : List Bool) : Bool :=
  wordlists.foldl (fun acc e => acc && e) true

/-- The dir-mode portion of `main`: the URL and wordlist checks run first
and a failure of either returns before any dispatch, producing no run and
no partial results; otherwise the candidates are built, `total` is their
number, and the consumer loop runs over the arriving messages. -/
def dirMain (parsed : Option (Option String)) (wordlistsExist : List Bool)
    (exitOnErr : Bool) (cfg : ResultProcessorConfig) (clock : Nat → Nat)
    (wordlist : List String) (url : String) (extensions : List String)
    (append_slash : Bool) (msgs : List SingleDirScanResult) : Option DirRun :=
  if url_check "dir" parsed = false then none
  else if all_wordlists_exist wordlistsExist = false then none
  else some (dirRun exitOnErr cfg (dirCandidates wordlist url extensions append_slash).length clock msgs)

/-- The dns-mode portion of `main`: the URL check is skipped in dns mode,
the wordlist check still runs and a failure returns before any dispatch. -/
def dnsMain (parsed : Option (Option String)) (wordlistsExist : List Bool)
    (wordlist : List String) (domain : String)
    (msgs : List SingleDnsScanResult) : Option DnsRun :=
  if url_check "dns" parsed = false then none
  else if all_wordlists_exist wordlistsExist = false then none
  else some (dnsRun (build_domains wordlist domain).length msgs)

/-! ## Example values used to exercise the model -/

/-- A successful dir-mode probe result. -/
def exDirOk : SingleDirScanResult := ⟨"http://t/admin", "GET", "200 OK", none, none⟩

/-- A dir-mode probe result carrying a connection error. -/
def exDirErr : SingleDirScanResult := ⟨"http://t/x", "GET", "", some "connection refused", none⟩

/-- A dir-mode probe result with status `404`. -/
def exDir404 : SingleDirScanResult := ⟨"http://t/y", "GET", "404", none, none⟩

/-- A vhost-mode probe result that was not ignored. -/
def exVhostOk : SingleVhostScanResult := ⟨"staging.example.com", "GET", "200 OK", none, false⟩

/-- A vhost-mode probe result whose body matched an ignore string. -/
def exVhostIgnored : SingleVhostScanResult := ⟨"dev.example.com", "GET", "200 OK", none, true⟩

/-- A vhost-mode probe result carrying a connection error. -/
def exVhostErr : SingleVhostScanResult := ⟨"bad.example.com", "GET", "", some "connection refused", false⟩

/-- A successfully resolved dns probe result. -/
def exDnsOk : SingleDnsScanResult := ⟨"www.example.com.:0", true, some [⟨"93.184.216.34", true⟩]⟩

/-- A failed dns probe result. -/
def exDnsFail : SingleDnsScanResult := ⟨"mail.example.com.:0", false, none⟩

/-- A successful dns probe result whose domain is shorter than three bytes. -/
def exDnsShort : SingleDnsScanResult := ⟨"ab", true, some []⟩

/-!
## Theorems

Each claim of the specification review is settled by one named theorem
below; helper lemmas carry the inductions.
-/

/-- Folding a conjunction from `false` stays `false`. -/
lemma foldl_and_false : ∀ l : List Bool, List.foldl (fun acc e => acc && e) false l = false := by
  intro l
  induction l with
  | nil => rfl
  | cons b t ih => simpa using ih

/-- A single missing wordlist makes the conjunction of existence checks
false, whatever the accumulator. -/
lemma foldl_and_of_mem_false :
    ∀ (l : List Bool) (acc : Bool), false ∈ l →
      List.foldl (fun acc e => acc && e) acc l = false := by
  intro l
  induction l with
  | nil => intro acc h; cases h
  | cons b t ih =>
    intro acc h
    rcases List.mem_cons.mp h with hb | ht
    · subst hb
      simpa using foldl_and_false t
    · exact ih (acc && b) ht

/-- A missing wordlist fails the startup existence check. -/
lemma all_wordlists_exist_false_of_mem :
    ∀ wordlists : List Bool, false ∈ wordlists → all_wordlists_exist wordlists = false := by
  intro l h
  exact foldl_and_of_mem_false l true h

/-- C7: for every configuration, in non-DNS modes a target URL that fails
to parse, has no scheme, or has a scheme other than http/https makes the
startup URL check fail, and in every mode a missing wordlist makes the
existence check fail; in either case the dir-mode and dns-mode drivers
return `none` -- they stop before any dispatch and produce no partial
results. -/
theorem startup_failures_abort_before_dispatch :
    (∀ (mode : String) (parsed : Option (Option String)),
        mode ≠ "dns" →
        (parsed = none ∨ parsed = some none ∨
          ∃ s, parsed = some (some s) ∧ s ≠ "http" ∧ s ≠ "https") →
        url_check mode parsed = false) ∧
      (∀ wordlists : List Bool, false ∈ wordlists →
        all_wordlists_exist wordlists = false) ∧
      (∀ (parsed : Option (Option String)) (wordlistsExist : List Bool)
          (exitOnErr : Bool) (cfg : ResultProcessorConfig) (clock : Nat → Nat)
          (wordlist : List String) (url : String) (extensions : List String)
          (append_slash : Bool) (msgs : List SingleDirScanResult),
        url_check "dir" parsed = false ∨ all_wordlists_exist wordlistsExist = false →
        dirMain parsed wordlistsExist exitOnErr cfg clock wordlist url extensions
          append_slash msgs = none) ∧
      (∀ (parsed : Option (Option String)) (wordlistsExist : List Bool)
          (wordlist : List String) (domain : String) (msgs : List SingleDnsScanResult),
        false ∈ wordlistsExist →
        dnsMain parsed wordlistsExist wordlist domain msgs = none) := by
  refine ⟨?_, all_wordlists_exist_false_of_mem, ?_, ?_⟩
  · intro mode parsed hm hbad
    rcases hbad with h | h | ⟨s, h, hs1, hs2⟩
    · subst h; simp [url_check, hm]
    · subst h; simp [url_check, hm]
    · subst h; simp [url_check, hm, hs1, hs2]
  · intro parsed wlex e cfg clock w url exts slash msgs h
    by_cases hu : url_check "dir" parsed = false
    · simp [dirMain, hu]
    · rcases h with h | h
      · exact absurd h hu
      · simp [dirMain, hu, h]
  · intro parsed wlex w domain msgs h
    have hw := all_wordlists_exist_false_of_mem wlex h
    by_cases hu : url_check "dns" parsed = false
    · simp [dnsMain, hu]
    · simp [dnsMain, hu, hw]

/-- Witness for C7 at concrete inputs: an unsupported scheme, a missing
wordlist, and the resulting absence of any run output. -/
theorem startup_failures_abort_before_dispatch_witness :
    url_check "dir" (some (some "ftp")) = false ∧
      all_wordlists_exist [true, false] = false ∧
      dirMain (some (some "ftp")) [true] false ⟨[], ["404"]⟩ (fun _ => 1)
        ["admin"] "http://t/" [] false [] = none ∧
      dnsMain (some (some "http")) [false] ["www"] "example.com" [] = none := by
  refine ⟨?_, ?_, ?_, ?_⟩
  · exact startup_failures_abort_before_dispatch.1 "dir" (some (some "ftp"))
      (by decide) (Or.inr (Or.inr ⟨"ftp", rfl, by decide, by decide⟩))
  · exact startup_failures_abort_before_dispatch.2.1 [true, false] (by decide)
  · exact startup_failures_abort_before_dispatch.2.2.1 (some (some "ftp")) [true]
      false ⟨[], ["404"]⟩ (fun _ => 1) ["admin"] "http://t/" [] false []
      (Or.inl (by decide))
  · exact startup_failures_abort_before_dispatch.2.2.2 (some (some "http")) [false]
      ["www"] "example.com" [] (by decide)

/-- C4: in dir mode each word yields one candidate for the bare path, one
per configured non-empty extension, and one more with a trailing slash
when append-slash is set -- so the candidate count is
`words * (1 + extensions + slash)` -- and the concrete scenario
`["admin","login"]` with extensions `["php"]` and append-slash off yields
exactly `admin, admin.php, login, login.php`. -/
theorem dir_candidate_expansion :
    (∀ (wordlist : List String) (url : String) (extensions : List String)
        (append_slash : Bool),
        (dirCandidates wordlist url extensions append_slash).length =
          wordlist.length *
            (1 + (extensions.filter (fun e => !e.isEmpty)).length +
              (if append_slash then 1 else 0))) ∧
      dirCandidates ["admin", "login"] "" ["php"] false =
        ["admin", "admin.php", "login", "login.php"] := by
  constructor
  · intro w url exts slash
    unfold dirCandidates
    induction w with
    | nil => simp [build_urls]
    | cons a t ih =>
      simp only [build_urls, List.foldr_cons] at ih ⊢
      cases slash <;>
        simp_all [List.length_append, Nat.mul_succ, Nat.succ_mul] <;> ring
  · decide

/-- C9: the `OK` line for a successfully resolved domain is produced by
slicing off exactly the last three bytes of the domain string, and the
slice is out of bounds -- a panic, modelled as `none` -- exactly when the
domain is shorter than three bytes. -/
theorem dns_print_slices_last_three :
    ∀ msg : SingleDnsScanResult,
      (dnsPrintOk msg = none ↔ msg.domain.length < 3) ∧
        (3 ≤ msg.domain.length →
          ∃ tail, tail.length = 3 ∧
            msg.domain.toList =
              msg.domain.toList.take (msg.domain.length - 3) ++ tail ∧
            dnsPrintOk msg =
              some ("OK\t" ++
                String.mk (msg.domain.toList.take (msg.domain.length - 3)))) := by
  intro msg
  constructor
  · unfold dnsPrintOk domainSlice
    by_cases h : 3 ≤ msg.domain.length
    · simp only [if_pos h, Option.map_some]
      constructor
      · intro hc; cases hc
      · intro hc; omega
    · simp only [if_neg h, Option.map_none]
      constructor
      · intro _; omega
      · intro _; rfl
  · intro h
    refine ⟨msg.domain.toList.drop (msg.domain.length - 3), ?_, ?_, ?_⟩
    · have hlen : msg.domain.toList.length = msg.domain.length := rfl
      rw [List.length_drop, hlen]
      omega
    · exact (List.take_append_drop _ _).symm
    · unfold dnsPrintOk domainSlice
      simp [if_pos h]

/-- Witness for C9: the slicing panics on a two-byte domain and drops the
trailing three bytes of a real candidate domain. -/
theorem dns_print_slices_last_three_witness :
    dnsPrintOk exDnsShort = none ∧
      ∃ tail, tail.length = 3 ∧
        exDnsOk.domain.toList =
          exDnsOk.domain.toList.take (exDnsOk.domain.length - 3) ++ tail ∧
        dnsPrintOk exDnsOk =
          some ("OK\t" ++
            String.mk (exDnsOk.domain.toList.take (exDnsOk.domain.length - 3))) :=
  ⟨(dns_print_slices_last_three exDnsShort).1.mpr (by decide),
    (dns_print_slices_last_three exDnsOk).2 (by decide)⟩

/-- C10: with the ignore-status-codes argument absent, the startup filter
policy carries exactly `["404"]` as its exclude set (clap's registered
default), and with default filters -- empty include list -- the dir result
processor drops every outcome whose status is `"404"`. -/
theorem default_status_filter_excludes_404 :
    startup_filter_policy ⟨none, none, none, none⟩ =
        some ⟨[], ["404"], [], []⟩ ∧
      ∀ (results : List SingleDirScanResult) (msg : SingleDirScanResult),
        msg.status = "404" →
        maybe_add_result ⟨[], ["404"]⟩ results msg = (results, false) := by
  constructor
  · decide
  · intro results msg h
    unfold maybe_add_result
    rw [h]
    simp

/-- Witness for C10: a concrete 404 outcome is not added. -/
theorem default_status_filter_excludes_404_witness :
    maybe_add_result ⟨[], ["404"]⟩ [] exDir404 = ([], false) :=
  default_status_filter_excludes_404.2 [] exDir404 rfl

/-- C1 counterexample: a startup configuration giving both an include and
an exclude status code passes clap's validation -- the two status-code
arguments declare no conflict -- and reaches a run with both
`include_codes` and `exclude_codes` non-empty, refuting the claim that
configuring both sets on the status-code axis is rejected at startup. -/
theorem status_code_axes_not_exclusive :
    startup_filter_policy ⟨none, none, some ["200"], some ["404"]⟩ =
        some ⟨["200"], ["404"], [], []⟩ ∧
      (["200"] : List String) ≠ [] ∧ (["404"] : List String) ≠ [] := by
  refine ⟨by decide, by decide, by decide⟩

/-- C1 amended: the mutual exclusion holds only on the body-string axis --
every startup configuration that reaches a run has an empty include-body
or an empty exclude-body list, because `include-string` conflicts with
`ignore-string` -- while on the status-code axis a run with both sets
non-empty exists. -/
theorem body_string_axis_exclusive :
    (∀ (cli : FilterCli) (p : FilterPolicy),
        startup_filter_policy cli = some p →
        p.include_body = [] ∨ p.exclude_body = []) ∧
      ∃ (cli : FilterCli) (p : FilterPolicy),
        startup_filter_policy cli = some p ∧
          p.include_codes ≠ [] ∧ p.exclude_codes ≠ [] := by
  constructor
  · rintro ⟨is, gs, sc, SC⟩ p h
    match is, gs with
    | none, gs =>
      unfold startup_filter_policy at h
      split at h
      · cases h
        left
        rfl
      · cases h
    | some l, none =>
      unfold startup_filter_policy at h
      split at h
      · cases h
        right
        rfl
      · cases h
    | some l, some l' =>
      exfalso
      unfold startup_filter_policy at h
      split at h
      · rename_i hacc
        unfold clap_accepts FilterCli.present at hacc
        simp only [Option.isSome_some, if_pos, if_true] at hacc
        rw [List.all_eq_true] at hacc
        have hmem : "include-string" ∈
            ("include-string" :: "ignore-string" ::
              ((if (sc : Option (List String)).isSome then ["include-status-codes"] else []) ++
                (if (SC : Option (List String)).isSome then ["ignore-status-codes"] else []))) := by
          exact List.mem_cons_self _ _
        have := hacc _ hmem
        simp [arg_conflicts] at this
      · cases h
  · exact ⟨⟨none, none, some ["200"], some ["404"]⟩, ⟨["200"], ["404"], [], []⟩,
      by decide, by decide, by decide⟩

/-- Witness for the amended C1 at a concrete accepted configuration. -/
theorem body_string_axis_exclusive_witness :
    (["x"] : List String) = [] ∨ ([] : List String) = [] :=
  body_string_axis_exclusive.1 ⟨some ["x"], none, none, none⟩
    ⟨[], ["404"], ["x"], []⟩ (by decide)


/-! ### Unfolding equations for the consumer loops -/

/-- Once the counter reaches the expected total the dir loop exits. -/
lemma dirLoopAux_total (e : Bool) (cfg : ResultProcessorConfig) (total : Nat)
    (clock : Nat → Nat) (current : Nat) (msgs res : List SingleDirScanResult)
    (hc : current = total) :
    dirLoopAux e cfg total clock current msgs res = ⟨[], res, .completed⟩ := by
  cases msgs <;> · simp only [dirLoopAux]; rw [if_pos hc]

/-- Receiving from a closed channel breaks the dir loop. -/
lemma dirLoopAux_nil (e : Bool) (cfg : ResultProcessorConfig) (total : Nat)
    (clock : Nat → Nat) (current : Nat) (res : List SingleDirScanResult)
    (hc : current ≠ total) :
    dirLoopAux e cfg total clock current [] res =
      ⟨[dirLabelEvent clock current], res, .channelClosed⟩ := by
  simp only [dirLoopAux]; rw [if_neg hc]

/-- An error on the first received message, or with exit-on-error set,
breaks the dir loop after being reported. -/
lemma dirLoopAux_cons_break (e : Bool) (cfg : ResultProcessorConfig)
    (total : Nat) (clock : Nat → Nat) (current : Nat)
    (msg : SingleDirScanResult) (rest res : List SingleDirScanResult)
    (hc : current ≠ total)
    (hb : msg.error.isSome ∧ (current + 1 = 1 ∨ e = true)) :
    dirLoopAux e cfg total clock current (msg :: rest) res =
      ⟨dirLabelEvent clock current :: .recv msg ::
          msg.error.toList.map DirEvent.reportError,
        res, .connectionError⟩ := by
  simp only [dirLoopAux]; rw [if_neg hc, if_pos hb]

/-- A message that does not break the dir loop is reported when it carries
an error and then handed to the result processor. -/
lemma dirLoopAux_cons_cont (e : Bool) (cfg : ResultProcessorConfig)
    (total : Nat) (clock : Nat → Nat) (current : Nat)
    (msg : SingleDirScanResult) (rest res : List SingleDirScanResult)
    (hc : current ≠ total)
    (hb : ¬(msg.error.isSome ∧ (current + 1 = 1 ∨ e = true))) :
    dirLoopAux e cfg total clock current (msg :: rest) res =
      ⟨dirLabelEvent clock current :: .recv msg ::
          (msg.error.toList.map DirEvent.reportError ++
            ((if (maybe_add_result cfg res msg).2 then [DirEvent.found msg]
              else []) ++
              (dirLoopAux e cfg total clock (current + 1) rest
                (maybe_add_result cfg res msg).1).events)),
        (dirLoopAux e cfg total clock (current + 1) rest
          (maybe_add_result cfg res msg).1).results,
        (dirLoopAux e cfg total clock (current + 1) rest
          (maybe_add_result cfg res msg).1).reason⟩ := by
  simp only [dirLoopAux]; rw [if_neg hc, if_neg hb]

/-- Once the counter reaches the expected total the vhost loop exits. -/
lemma vhostLoopAux_total (e : Bool) (total : Nat) (current : Nat)
    (msgs res : List SingleVhostScanResult) (hc : current = total) :
    vhostLoopAux e total current msgs res = ⟨0, [], res, [], .completed⟩ := by
  cases msgs <;> · simp only [vhostLoopAux]; rw [if_pos hc]

/-- Receiving from a closed channel breaks the vhost loop. -/
lemma vhostLoopAux_nil (e : Bool) (total : Nat) (current : Nat)
    (res : List SingleVhostScanResult) (hc : current ≠ total) :
    vhostLoopAux e total current [] res = ⟨0, [], res, [], .channelClosed⟩ := by
  simp only [vhostLoopAux]; rw [if_neg hc]

/-- An error on the first received message, or with exit-on-error set,
breaks the vhost loop after being reported. -/
lemma vhostLoopAux_cons_break (e : Bool) (total : Nat) (current : Nat)
    (msg : SingleVhostScanResult) (rest res : List SingleVhostScanResult)
    (hc : current ≠ total)
    (hb : msg.error.isSome ∧ (current + 1 = 1 ∨ e = true)) :
    vhostLoopAux e total current (msg :: rest) res =
      ⟨1, msg.error.toList, res, [], .connectionError⟩ := by
  simp only [vhostLoopAux]; rw [if_neg hc, if_pos hb]

/-- A message that does not break the vhost loop is filtered on its
`ignored` flag and the loop continues. -/
lemma vhostLoopAux_cons_cont (e : Bool) (total : Nat) (current : Nat)
    (msg : SingleVhostScanResult) (rest res : List SingleVhostScanResult)
    (hc : current ≠ total)
    (hb : ¬(msg.error.isSome ∧ (current + 1 = 1 ∨ e = true))) :
    vhostLoopAux e total current (msg :: rest) res =
      ⟨1 + (vhostLoopAux e total (current + 1) rest
            (if msg.ignored then res else res ++ [msg])).received,
        msg.error.toList ++
          (vhostLoopAux e total (current + 1) rest
            (if msg.ignored then res else res ++ [msg])).reported,
        (vhostLoopAux e total (current + 1) rest
          (if msg.ignored then res else res ++ [msg])).results,
        (if msg.ignored then [] else [msg]) ++
          (vhostLoopAux e total (current + 1) rest
            (if msg.ignored then res else res ++ [msg])).printed,
        (vhostLoopAux e total (current + 1) rest
          (if msg.ignored then res else res ++ [msg])).reason⟩ := by
  simp only [vhostLoopAux]; rw [if_neg hc, if_neg hb]

/-- Once the counter reaches the expected total the dns loop exits. -/
lemma dnsLoopAux_total (total : Nat) (current : Nat)
    (msgs res : List SingleDnsScanResult) (hc : current = total) :
    dnsLoopAux total current msgs res = ⟨0, res, [], .completed⟩ := by
  cases msgs <;> · simp only [dnsLoopAux]; rw [if_pos hc]

/-- Receiving from a closed channel breaks the dns loop. -/
lemma dnsLoopAux_nil (total : Nat) (current : Nat)
    (res : List SingleDnsScanResult) (hc : current ≠ total) :
    dnsLoopAux total current [] res = ⟨0, res, [], .channelClosed⟩ := by
  simp only [dnsLoopAux]; rw [if_neg hc]

/-- Every received dns message is recorded; a successful one is printed. -/
lemma dnsLoopAux_cons (total : Nat) (current : Nat) (msg : SingleDnsScanResult)
    (rest res : List SingleDnsScanResult) (hc : current ≠ total) :
    dnsLoopAux total current (msg :: rest) res =
      ⟨1 + (dnsLoopAux total (current + 1) rest (res ++ [msg])).received,
        (dnsLoopAux total (current + 1) rest (res ++ [msg])).results,
        (if msg.status then
            [(dnsPrintOk msg, (msg.extra.getD []).map addrLine)]
          else []) ++
          (dnsLoopAux total (current + 1) rest (res ++ [msg])).printed,
        (dnsLoopAux total (current + 1) rest (res ++ [msg])).reason⟩ := by
  simp only [dnsLoopAux]; rw [if_neg hc]

/-! ### Receive counts -/

/-- Any iteration that actually enters the loop body receives a message. -/
lemma countRecv_pos_of_cons (e : Bool) (cfg : ResultProcessorConfig)
    (total : Nat) (clock : Nat → Nat) (current : Nat)
    (msg : SingleDirScanResult) (rest res : List SingleDirScanResult)
    (hc : current ≠ total) :
    1 ≤ countRecv (dirLoopAux e cfg total clock current (msg :: rest) res).events := by
  by_cases hb : msg.error.isSome = true ∧ (current + 1 = 1 ∨ e = true)
  · rw [dirLoopAux_cons_break e cfg total clock current msg rest res hc hb]
    simp [countRecv, List.countP_cons, dirLabelEvent]
  · rw [dirLoopAux_cons_cont e cfg total clock current msg rest res hc hb]
    simp [countRecv, List.countP_cons, dirLabelEvent]

/-- A run of the dir loop that broke on a connection error received at
least one message -- the one carrying the error. -/
lemma countRecv_pos_of_connectionError (e : Bool) (cfg : ResultProcessorConfig)
    (total : Nat) (clock : Nat → Nat) (msgs : List SingleDirScanResult)
    (current : Nat) (res : List SingleDirScanResult)
    (h : (dirLoopAux e cfg total clock current msgs res).reason = .connectionError) :
    1 ≤ countRecv (dirLoopAux e cfg total clock current msgs res).events := by
  by_cases hc : current = total
  · rw [dirLoopAux_total e cfg total clock current msgs res hc] at h
    exact StopReason.noConfusion h
  · cases msgs with
    | nil =>
      rw [dirLoopAux_nil e cfg total clock current res hc] at h
      exact StopReason.noConfusion h
    | cons m t => exact countRecv_pos_of_cons e cfg total clock current m t res hc

/-- Receiving one more message adds one to the receive count of the
continuation branch of the dir loop. -/
lemma countRecv_cont (e : Bool) (cfg : ResultProcessorConfig) (total : Nat)
    (clock : Nat → Nat) (current : Nat) (msg : SingleDirScanResult)
    (rest res : List SingleDirScanResult) (hc : current ≠ total)
    (hb : ¬(msg.error.isSome = true ∧ (current + 1 = 1 ∨ e = true))) :
    countRecv (dirLoopAux e cfg total clock current (msg :: rest) res).events =
      1 + countRecv (dirLoopAux e cfg total clock (current + 1) rest
        (maybe_add_result cfg res msg).1).events := by
  rw [dirLoopAux_cons_cont e cfg total clock current msg rest res hc hb]
  cases he : msg.error <;>
    by_cases hp : (maybe_add_result cfg res msg).2 <;>
      simp [countRecv, List.countP_cons, List.countP_append, dirLabelEvent, hp] <;>
        omega

/-- The continuation branch of the dir loop keeps the recursion's stop
reason. -/
lemma reason_cont (e : Bool) (cfg : ResultProcessorConfig) (total : Nat)
    (clock : Nat → Nat) (current : Nat) (msg : SingleDirScanResult)
    (rest res : List SingleDirScanResult) (hc : current ≠ total)
    (hb : ¬(msg.error.isSome = true ∧ (current + 1 = 1 ∨ e = true))) :
    (dirLoopAux e cfg total clock current (msg :: rest) res).reason =
      (dirLoopAux e cfg total clock (current + 1) rest
        (maybe_add_result cfg res msg).1).reason := by
  rw [dirLoopAux_cons_cont e cfg total clock current msg rest res hc hb]

/-- A run of the vhost loop that broke on a connection error received at
least one message. -/
lemma vhost_received_pos_of_connectionError (e : Bool) (total : Nat)
    (msgs : List SingleVhostScanResult) (current : Nat)
    (res : List SingleVhostScanResult)
    (h : (vhostLoopAux e total current msgs res).reason = .connectionError) :
    1 ≤ (vhostLoopAux e total current msgs res).received := by
  by_cases hc : current = total
  · rw [vhostLoopAux_total e total current msgs res hc] at h
    exact StopReason.noConfusion h
  · cases msgs with
    | nil =>
      rw [vhostLoopAux_nil e total current res hc] at h
      exact StopReason.noConfusion h
    | cons m t =>
      by_cases hb : m.error.isSome = true ∧ (current + 1 = 1 ∨ e = true)
      · rw [vhostLoopAux_cons_break e total current m t res hc hb]
      · rw [vhostLoopAux_cons_cont e total current m t res hc hb]
        exact Nat.le_add_right 1 _

/-- C2: in the dir and vhost consumer loops, an outcome carrying an error
always has the error reported, and the loop stops consuming at that
outcome -- exactly one receive and a connection-error stop -- if and only
if the outcome is the first one received in the run (`current = 0`
messages received before it) or exit-on-connection-errors is configured. -/
theorem error_outcome_stops_iff_first_or_flag :
    (∀ (exitOnErr : Bool) (cfg : ResultProcessorConfig) (total : Nat)
        (clock : Nat → Nat) (current : Nat) (msg : SingleDirScanResult)
        (rest res : List SingleDirScanResult) (err : String),
        current ≠ total → msg.error = some err →
        DirEvent.reportError err ∈
            (dirLoopAux exitOnErr cfg total clock current (msg :: rest) res).events ∧
          ((countRecv (dirLoopAux exitOnErr cfg total clock current (msg :: rest) res).events = 1 ∧
              (dirLoopAux exitOnErr cfg total clock current (msg :: rest) res).reason =
                .connectionError) ↔
            (current = 0 ∨ exitOnErr = true))) ∧
      (∀ (exitOnErr : Bool) (total : Nat) (current : Nat)
          (msg : SingleVhostScanResult) (rest res : List SingleVhostScanResult)
          (err : String),
        current ≠ total → msg.error = some err →
        err ∈ (vhostLoopAux exitOnErr total current (msg :: rest) res).reported ∧
          (((vhostLoopAux exitOnErr total current (msg :: rest) res).received = 1 ∧
              (vhostLoopAux exitOnErr total current (msg :: rest) res).reason =
                .connectionError) ↔
            (current = 0 ∨ exitOnErr = true))) := by
  constructor
  · intro e cfg total clock current msg rest res err hc he
    have hsome : msg.error.isSome = true := by rw [he]; rfl
    by_cases hb : current + 1 = 1 ∨ e = true
    · rw [dirLoopAux_cons_break e cfg total clock current msg rest res hc ⟨hsome, hb⟩]
      refine ⟨by rw [he]; simp, ?_⟩
      constructor
      · intro _
        rcases hb with h1 | h2
        · exact Or.inl (by omega)
        · exact Or.inr h2
      · intro _
        rw [he]
        refine ⟨by simp [countRecv, List.countP_cons, dirLabelEvent, Option.toList], rfl⟩
    · have hb' : ¬(msg.error.isSome = true ∧ (current + 1 = 1 ∨ e = true)) :=
        fun hcon => hb hcon.2
      constructor
      · rw [dirLoopAux_cons_cont e cfg total clock current msg rest res hc hb']
        rw [he]
        simp
      · constructor
        · rintro ⟨hcount, hreason⟩
          exfalso
          rw [countRecv_cont e cfg total clock current msg rest res hc hb'] at hcount
          rw [reason_cont e cfg total clock current msg rest res hc hb'] at hreason
          have := countRecv_pos_of_connectionError e cfg total clock rest
            (current + 1) (maybe_add_result cfg res msg).1 hreason
          omega
        · intro h
          exfalso
          rcases h with h | h
          · exact hb (Or.inl (by omega))
          · exact hb (Or.inr h)
  · intro e total current msg rest res err hc he
    have hsome : msg.error.isSome = true := by rw [he]; rfl
    by_cases hb : current + 1 = 1 ∨ e = true
    · rw [vhostLoopAux_cons_break e total current msg rest res hc ⟨hsome, hb⟩]
      refine ⟨by rw [he]; simp, ?_⟩
      constructor
      · intro _
        rcases hb with h1 | h2
        · exact Or.inl (by omega)
        · exact Or.inr h2
      · intro _
        exact ⟨rfl, rfl⟩
    · have hb' : ¬(msg.error.isSome = true ∧ (current + 1 = 1 ∨ e = true)) :=
        fun hcon => hb hcon.2
      rw [vhostLoopAux_cons_cont e total current msg rest res hc hb']
      constructor
      · rw [he]
        simp
      · constructor
        · rintro ⟨hcount, hreason⟩
          exfalso
          have hcount' : 1 + (vhostLoopAux e total (current + 1) rest
              (if msg.ignored then res else res ++ [msg])).received = 1 := hcount
          have := vhost_received_pos_of_connectionError e total rest (current + 1)
            (if msg.ignored then res else res ++ [msg]) hreason
          omega
        · intro h
          exfalso
          rcases h with h | h
          · exact hb (Or.inl (by omega))
          · exact hb (Or.inr h)

/-- Witness for C2 at concrete runs: with exit-on-connection-errors set,
an error on the third message (two already received) stops both loops,
and the error is reported. -/
theorem error_outcome_stops_iff_first_or_flag_witness :
    (countRecv (dirLoopAux true ⟨[], ["404"]⟩ 5 (fun _ => 1) 2 [exDirErr] []).events = 1 ∧
        (dirLoopAux true ⟨[], ["404"]⟩ 5 (fun _ => 1) 2 [exDirErr] []).reason =
          .connectionError) ∧
      DirEvent.reportError "connection refused" ∈
        (dirLoopAux true ⟨[], ["404"]⟩ 5 (fun _ => 1) 2 [exDirErr] []).events ∧
      ((vhostLoopAux true 5 2 [exVhostErr] []).received = 1 ∧
        (vhostLoopAux true 5 2 [exVhostErr] []).reason = .connectionError) ∧
      "connection refused" ∈ (vhostLoopAux true 5 2 [exVhostErr] []).reported := by
  have hd := error_outcome_stops_iff_first_or_flag.1 true ⟨[], ["404"]⟩ 5
    (fun _ => 1) 2 exDirErr [] [] "connection refused" (by decide) rfl
  have hv := error_outcome_stops_iff_first_or_flag.2 true 5 2 exVhostErr [] []
    "connection refused" (by decide) rfl
  exact ⟨hd.2.mpr (Or.inr rfl), hd.1, hv.2.mpr (Or.inr rfl), hv.1⟩
/-- Error-free messages drain the dir loop: the receive count is the
number of loop iterations still to run or of messages still available,
whichever is smaller, and the loop stops with `completed` when enough
messages arrive and with `channelClosed` otherwise. -/
lemma dirLoopAux_no_error_drains (e : Bool) (cfg : ResultProcessorConfig)
    (total : Nat) (clock : Nat → Nat) :
    ∀ (msgs : List SingleDirScanResult) (current : Nat)
      (res : List SingleDirScanResult),
      (∀ m ∈ msgs, m.error = none) → current ≤ total →
      countRecv (dirLoopAux e cfg total clock current msgs res).events =
          min (total - current) msgs.length ∧
        (total - current ≤ msgs.length →
          (dirLoopAux e cfg total clock current msgs res).reason = .completed) ∧
        (msgs.length < total - current →
          (dirLoopAux e cfg total clock current msgs res).reason = .channelClosed) := by
  intro msgs
  induction msgs with
  | nil =>
    intro current res _ hle
    by_cases hc : current = total
    · rw [dirLoopAux_total e cfg total clock current [] res hc]
      refine ⟨?_, fun _ => rfl, fun h => ?_⟩
      · simp [countRecv]
      · exfalso; omega
    · rw [dirLoopAux_nil e cfg total clock current res hc]
      refine ⟨?_, fun h => ?_, fun _ => rfl⟩
      · simp [countRecv, dirLabelEvent]
      · exfalso; simp at h; omega
  | cons m t ih =>
    intro current res hall hle
    by_cases hc : current = total
    · rw [dirLoopAux_total e cfg total clock current (m :: t) res hc]
      refine ⟨?_, fun _ => rfl, fun h => ?_⟩
      · simp [countRecv]
        omega
      · exfalso; omega
    · have hm : m.error = none := hall m (List.mem_cons_self m t)
      have hb : ¬(m.error.isSome = true ∧ (current + 1 = 1 ∨ e = true)) := by
        rw [hm]; rintro ⟨hx, _⟩; exact Bool.noConfusion hx
      have ihh := ih (current + 1) (maybe_add_result cfg res m).1
        (fun x hx => hall x (List.mem_cons_of_mem m hx)) (by omega)
      refine ⟨?_, fun h => ?_, fun h => ?_⟩
      · rw [countRecv_cont e cfg total clock current m t res hc hb, ihh.1]
        simp only [List.length_cons]
        omega
      · rw [reason_cont e cfg total clock current m t res hc hb]
        exact ihh.2.1 (by simp at h ⊢; omega)
      · rw [reason_cont e cfg total clock current m t res hc hb]
        exact ihh.2.2 (by simp at h ⊢; omega)

/-- C3: for every valid configuration and error-free run, the dir consumer
loop receives exactly one outcome per generated candidate -- when the
workers put one message per candidate on the channel the loop receives
them all and stops with `completed` exactly at the candidate count, and
when the channel closes early it stops there with `channelClosed` having
received every available message. -/
theorem one_outcome_per_candidate :
    ∀ (exitOnErr : Bool) (cfg : ResultProcessorConfig) (clock : Nat → Nat)
      (wordlist : List String) (url : String) (extensions : List String)
      (append_slash : Bool) (msgs : List SingleDirScanResult),
      (∀ m ∈ msgs, m.error = none) →
      ((msgs.length = (dirCandidates wordlist url extensions append_slash).length →
          countRecv (dirRun exitOnErr cfg
              (dirCandidates wordlist url extensions append_slash).length clock
              msgs).events = msgs.length ∧
            (dirRun exitOnErr cfg
              (dirCandidates wordlist url extensions append_slash).length clock
              msgs).reason = .completed) ∧
        (msgs.length < (dirCandidates wordlist url extensions append_slash).length →
          countRecv (dirRun exitOnErr cfg
              (dirCandidates wordlist url extensions append_slash).length clock
              msgs).events = msgs.length ∧
            (dirRun exitOnErr cfg
              (dirCandidates wordlist url extensions append_slash).length clock
              msgs).reason = .channelClosed)) := by
  intro e cfg clock w url exts slash msgs hall
  have h := dirLoopAux_no_error_drains e cfg
    (dirCandidates w url exts slash).length clock msgs 0 [] hall (Nat.zero_le _)
  constructor
  · intro hlen
    refine ⟨?_, ?_⟩
    · rw [dirRun, h.1]
      omega
    · rw [dirRun]
      exact h.2.1 (by omega)
  · intro hlen
    refine ⟨?_, ?_⟩
    · rw [dirRun, h.1]
      omega
    · rw [dirRun]
      exact h.2.2 (by omega)

/-- Witness for C3 at a concrete run: one candidate, one error-free
message, received in full with a completed stop. -/
theorem one_outcome_per_candidate_witness :
    countRecv (dirRun false ⟨[], ["404"]⟩
        (dirCandidates ["admin"] "" [] false).length (fun _ => 1)
        [exDirOk]).events = 1 ∧
      (dirRun false ⟨[], ["404"]⟩ (dirCandidates ["admin"] "" [] false).length
        (fun _ => 1) [exDirOk]).reason = .completed :=
  (one_outcome_per_candidate false ⟨[], ["404"]⟩ (fun _ => 1) ["admin"] "" []
    false [exDirOk] (by decide)).1 (by decide)

/-- Error-free messages matching the remaining iteration count drain the
vhost loop completely: the accumulated results extend the accumulator with
exactly the outcomes whose `ignored` flag is false, in arrival order, and
the same outcomes are printed. -/
lemma vhostLoopAux_filters (e : Bool) (total : Nat) :
    ∀ (msgs : List SingleVhostScanResult) (current : Nat)
      (acc : List SingleVhostScanResult),
      (∀ m ∈ msgs, m.error = none) → msgs.length = total - current →
      current ≤ total →
      (vhostLoopAux e total current msgs acc).results =
          acc ++ msgs.filter (fun m => !m.ignored) ∧
        (vhostLoopAux e total current msgs acc).printed =
          msgs.filter (fun m => !m.ignored) ∧
        (vhostLoopAux e total current msgs acc).reason = .completed := by
  intro msgs
  induction msgs with
  | nil =>
    intro current acc _ hlen hle
    have hc : current = total := by simp at hlen; omega
    rw [vhostLoopAux_total e total current [] acc hc]
    simp
  | cons m t ih =>
    intro current acc hall hlen hle
    have hc : current ≠ total := by simp at hlen; omega
    have hm : m.error = none := hall m (List.mem_cons_self m t)
    have hb : ¬(m.error.isSome = true ∧ (current + 1 = 1 ∨ e = true)) := by
      rw [hm]; rintro ⟨hx, _⟩; exact Bool.noConfusion hx
    rw [vhostLoopAux_cons_cont e total current m t acc hc hb]
    have hlen' : t.length = total - (current + 1) := by simp at hlen; omega
    cases hig : m.ignored
    case true =>
      have iht := ih (current + 1) acc
        (fun x hx => hall x (List.mem_cons_of_mem m hx)) hlen' (by omega)
      refine ⟨?_, ?_, ?_⟩ <;>
        simp [hig, iht.1, iht.2.1, iht.2.2, List.filter_cons]
    case false =>
      have iht := ih (current + 1) (acc ++ [m])
        (fun x hx => hall x (List.mem_cons_of_mem m hx)) hlen' (by omega)
      refine ⟨?_, ?_, ?_⟩ <;>
        simp [hig, iht.1, iht.2.1, iht.2.2, List.filter_cons]

/-- C5: in an error-free vhost run with one outcome per candidate, an
outcome is added to the accumulated results and printed if and only if its
`ignored` flag is false -- the results and the printed lines are exactly
the non-ignored outcomes in arrival order, and an outcome with
`ignored = true` is never among the accumulated results. -/
theorem vhost_accepts_iff_not_ignored :
    ∀ (exitOnErr : Bool) (msgs : List SingleVhostScanResult),
      (∀ m ∈ msgs, m.error = none) →
      (vhostRun exitOnErr msgs.length msgs).results =
          msgs.filter (fun m => !m.ignored) ∧
        (vhostRun exitOnErr msgs.length msgs).printed =
          msgs.filter (fun m => !m.ignored) ∧
        ∀ m ∈ msgs, m.ignored = true →
          m ∉ (vhostRun exitOnErr msgs.length msgs).results := by
  intro e msgs hall
  have h := vhostLoopAux_filters e msgs.length msgs 0 [] hall (by omega)
    (by omega)
  have hres : (vhostRun e msgs.length msgs).results =
      msgs.filter (fun m => !m.ignored) := by
    rw [vhostRun, h.1]
    simp
  have hpr : (vhostRun e msgs.length msgs).printed =
      msgs.filter (fun m => !m.ignored) := by
    rw [vhostRun, h.2.1]
  refine ⟨hres, hpr, ?_⟩
  intro m hm hig hmem
  rw [hres] at hmem
  have := List.of_mem_filter hmem
  rw [hig] at this
  exact Bool.noConfusion this

/-- Witness for C5 at a concrete run: the ignored outcome is dropped, the
other is accepted and printed. -/
theorem vhost_accepts_iff_not_ignored_witness :
    (vhostRun false 2 [exVhostIgnored, exVhostOk]).results = [exVhostOk] ∧
      (vhostRun false 2 [exVhostIgnored, exVhostOk]).printed = [exVhostOk] ∧
      exVhostIgnored ∉ (vhostRun false 2 [exVhostIgnored, exVhostOk]).results := by
  have h := vhost_accepts_iff_not_ignored false [exVhostIgnored, exVhostOk]
    (by decide)
  exact ⟨h.1, h.2.1, h.2.2 exVhostIgnored (by decide) rfl⟩

/-- Messages matching the remaining iteration count drain the dns loop
completely: every received message is appended to the accumulated results
regardless of status, and exactly the successful ones are printed. -/
lemma dnsLoopAux_records (total : Nat) :
    ∀ (msgs : List SingleDnsScanResult) (current : Nat)
      (acc : List SingleDnsScanResult),
      msgs.length = total - current → current ≤ total →
      (dnsLoopAux total current msgs acc).results = acc ++ msgs ∧
        (dnsLoopAux total current msgs acc).printed =
          (msgs.filter (fun m => m.status)).map
            (fun m => (dnsPrintOk m, (m.extra.getD []).map addrLine)) ∧
        (dnsLoopAux total current msgs acc).received = msgs.length ∧
        (dnsLoopAux total current msgs acc).reason = .completed := by
  intro msgs
  induction msgs with
  | nil =>
    intro current acc hlen hle
    have hc : current = total := by simp at hlen; omega
    rw [dnsLoopAux_total total current [] acc hc]
    simp
  | cons m t ih =>
    intro current acc hlen hle
    have hc : current ≠ total := by simp at hlen; omega
    rw [dnsLoopAux_cons total current m t acc hc]
    have iht := ih (current + 1) (acc ++ [m])
      (by simp at hlen ⊢; omega) (by omega)
    refine ⟨?_, ?_, ?_, iht.2.2.2⟩
    · rw [iht.1]
      simp
    · rw [iht.2.1]
      cases hst : m.status <;> simp [List.filter_cons, hst]
    · rw [iht.2.2.1]
      simp [Nat.add_comm]

/-- C6: in a dns run with one outcome per candidate, every received
outcome is recorded in the result accumulator regardless of its status,
and a result line -- the sliced domain with its resolved addresses -- is
printed exactly for the outcomes whose status is true. -/
theorem dns_records_all_prints_successes :
    ∀ msgs : List SingleDnsScanResult,
      (dnsRun msgs.length msgs).results = msgs ∧
        (dnsRun msgs.length msgs).printed =
          (msgs.filter (fun m => m.status)).map
            (fun m => (dnsPrintOk m, (m.extra.getD []).map addrLine)) ∧
        (dnsRun msgs.length msgs).received = msgs.length ∧
        (dnsRun msgs.length msgs).reason = .completed := by
  intro msgs
  have h := dnsLoopAux_records msgs.length msgs 0 [] (by omega) (by omega)
  rw [dnsRun] at *
  refine ⟨?_, h.2.1, h.2.2.1, h.2.2.2⟩
  rw [h.1]
  simp

/-- Every label in a dir-loop trace was computed from the counter value
one ahead of the number of messages received at that point -- the counter
is incremented before the iteration's message is received -- and its text
is the throughput label for that counter and the observed seconds. -/
lemma labelsWithRecv_spec (e : Bool) (cfg : ResultProcessorConfig)
    (total : Nat) (clock : Nat → Nat) :
    ∀ (msgs : List SingleDirScanResult) (current : Nat)
      (res : List SingleDirScanResult) (x : LabelObs),
      x ∈ labelsWithRecv (dirLoopAux e cfg total clock current msgs res).events
        current →
      x.counter = x.recvBefore + 1 ∧ x.seconds = clock x.counter ∧
        x.text = throughput_label x.counter x.seconds := by
  intro msgs
  induction msgs with
  | nil =>
    intro current res x hx
    by_cases hc : current = total
    · rw [dirLoopAux_total e cfg total clock current [] res hc] at hx
      simp [labelsWithRecv] at hx
    · rw [dirLoopAux_nil e cfg total clock current res hc] at hx
      simp only [dirLabelEvent, labelsWithRecv, List.mem_singleton] at hx
      subst hx
      exact ⟨rfl, rfl, rfl⟩
  | cons m t ih =>
    intro current res x hx
    by_cases hc : current = total
    · rw [dirLoopAux_total e cfg total clock current (m :: t) res hc] at hx
      simp [labelsWithRecv] at hx
    · by_cases hb : m.error.isSome = true ∧ (current + 1 = 1 ∨ e = true)
      · rw [dirLoopAux_cons_break e cfg total clock current m t res hc hb] at hx
        cases he : m.error with
        | none => rw [he] at hb; exact absurd hb.1 (by simp)
        | some err =>
          rw [he] at hx
          simp only [dirLabelEvent, Option.toList_some, List.map_cons,
            List.map_nil, labelsWithRecv, List.mem_singleton,
            List.not_mem_nil] at hx
          subst hx
          exact ⟨rfl, rfl, rfl⟩
      · rw [dirLoopAux_cons_cont e cfg total clock current m t res hc hb] at hx
        have hx' : x = (⟨current + 1, clock (current + 1), current,
              throughput_label (current + 1) (clock (current + 1))⟩ : LabelObs) ∨
            x ∈ labelsWithRecv
              (dirLoopAux e cfg total clock (current + 1) t
                (maybe_add_result cfg res m).1).events (current + 1) := by
          cases he : m.error <;>
            by_cases hp : (maybe_add_result cfg res m).2 <;>
              · rw [he] at hx
                simp only [dirLabelEvent, Option.toList_some, Option.toList_none,
                  List.map_cons, List.map_nil, hp, if_true, if_false,
                  List.nil_append, List.cons_append, List.singleton_append,
                  labelsWithRecv, List.mem_cons, List.not_mem_nil] at hx
                tauto
        rcases hx' with hx' | hx'
        · subst hx'
          exact ⟨rfl, rfl, rfl⟩
        · exact ih (current + 1) (maybe_add_result cfg res m).1 x hx'

/-- C8 counterexample: in a concrete error-free run -- one message, one
elapsed second -- the single progress label reads `"1"` although zero
outcomes had been received when it was computed, so the reported
throughput is not `completed_count / elapsed_seconds` for a
`completed_count` of outcomes already received (that would read `"0"`). -/
theorem throughput_label_received_counterexample :
    labelsWithRecv (dirRun false ⟨[], ["404"]⟩ 1 (fun _ => 1)
        [exDirOk]).events 0 = [⟨1, 1, 0, "1"⟩] ∧
      "1" ≠ (if (1 : Nat) ≠ 0 then toString ((0 : Nat) / 1)
        else "warming up...") := by
  refine ⟨by decide, by decide⟩

/-- C8 amended: every progress label of a dir run divides the counter --
which is one more than the number of outcomes received when the label is
computed, the counter being incremented before the iteration's receive --
by the elapsed whole seconds when they are non-zero, and reads the
warming-up text otherwise. -/
theorem throughput_label_counts_inflight :
    ∀ (exitOnErr : Bool) (cfg : ResultProcessorConfig) (total : Nat)
      (clock : Nat → Nat) (msgs : List SingleDirScanResult) (x : LabelObs),
      x ∈ labelsWithRecv (dirRun exitOnErr cfg total clock msgs).events 0 →
      x.counter = x.recvBefore + 1 ∧
        x.text = (if x.seconds ≠ 0 then toString ((x.recvBefore + 1) / x.seconds)
          else "warming up...") := by
  intro e cfg total clock msgs x hx
  have h := labelsWithRecv_spec e cfg total clock msgs 0 [] x
    (by rw [dirRun] at hx; exact hx)
  refine ⟨h.1, ?_⟩
  rw [h.2.2, throughput_label, h.1]

/-- Witness for the amended C8 at the concrete run of the counterexample:
the label `"1"` is `(0 + 1) / 1` -- the receive count plus one. -/
theorem throughput_label_counts_inflight_witness :
    (⟨1, 1, 0, "1"⟩ : LabelObs).counter = (⟨1, 1, 0, "1"⟩ : LabelObs).recvBefore + 1 ∧
      (⟨1, 1, 0, "1"⟩ : LabelObs).text =
        (if (⟨1, 1, 0, "1"⟩ : LabelObs).seconds ≠ 0 then
            toString (((⟨1, 1, 0, "1"⟩ : LabelObs).recvBefore + 1) /
              (⟨1, 1, 0, "1"⟩ : LabelObs).seconds)
          else "warming up...") :=
  throughput_label_counts_inflight false ⟨[], ["404"]⟩ 1 (fun _ => 1) [exDirOk]
    ⟨1, 1, 0, "1"⟩ (by decide)

end Rustbuster
